import Mathlib

/-!
Verification of the choria-io/scaffold rendering and forms engine.

This file gives a shallow embedding, in Lean 4, of the parts of the
scaffold package (scaffold.go) and the forms package (forms/*.go and the
related files) that the verified properties talk about, together with the
theorems settling those properties.

Modelling conventions, used throughout:

* Go strings are Lean `String` values; where character-level reasoning is
  needed (the path guard) they are `List Char` values.
* Absolute file system paths are lists of path components
  (`/tmp/x` is `[toChars "tmp", toChars "x"]`); `renderPath` turns a
  component list back into the slash-separated character string that the
  Go code manipulates.
* The file system is an association list from paths to file contents;
  `os.WriteFile` is create-or-truncate, i.e. replace-or-append.
* SHA-256 is used by the source only to compare two files for equality,
  so content hashes are modelled by the contents themselves
  (collision-free abstraction).
* External collaborators (the template engines, the sprig helper library,
  the survey prompt library, the expression evaluator, post-processing
  subprocesses) are modelled at their interfaces, as the specification
  directs: engine execution output, user supplied template functions and
  the expression evaluator appear as parameters.
-/

namespace Scaffold

/-- A path component, e.g. the characters of the name tmp. -/
abbrev Comp := List Char

/-- Helper turning a string literal into a path component. -/
def toChars (s : String) : Comp := s.toList

/-- The OS path separator, filepath.Separator on unix systems. -/
def sepChar : Char := '/'

/-- Model of containedInDir (scaffold.go:423):
path == dir || strings.HasPrefix(path, dir+string(filepath.Separator)). -/
def containedInDir (path dir : List Char) : Bool :=
  path == dir || (dir ++ [sepChar]).isPrefixOf path

/-- The specification wording of the path guard: containedInDir(path, dir)
equals (path == dir) or path starts with dir followed by the separator. -/
def containedInDirSpec (path dir : List Char) : Prop :=
  path = dir ∨ ∃ rest, path = dir ++ sepChar :: rest

/-- Render a component list as the absolute slash-separated path string the
Go code works with; the empty list is the root path. -/
def renderPath (p : List Comp) : List Char :=
  if p = [] then [sepChar] else p.foldl (fun acc c => acc ++ sepChar :: c) []

/-- Lexical path cleaning on components, the semantics of filepath.Clean on
an absolute path: empty components and dot components vanish, a dotdot
component removes the preceding component (and is dropped at the root). -/
def cleanComps (cs : List Comp) : List Comp :=
  cs.foldl
    (fun acc c =>
      if c = [] ∨ c = ['.'] then acc
      else if c = ['.', '.'] then acc.dropLast
      else acc ++ [c])
    []

/-- filepath.Join(dir, rel) for a cleaned absolute dir: concatenate the
components and clean the result. -/
def joinAbs (dir rel : List Comp) : List Comp :=
  cleanComps (dir ++ rel)

/-- The file system seen by a render: an association list from absolute
paths (component lists) to file contents. -/
abbrev FS1 := List (List Comp × String)

/-- os.WriteFile semantics: replace the content when the path exists,
otherwise append a new file. -/
def fsWrite (fs : FS1) (p : List Comp) (c : String) : FS1 :=
  if fs.any (fun e => e.1 = p) then
    fs.map (fun e => if e.1 = p then (p, c) else e)
  else fs ++ [(p, c)]

/-- The containment failure raised by saveFile. -/
inductive WriteErr where
  | notInTargetDir (out dir : List Comp)
deriving Repr, DecidableEq

/-- Model of saveFile (scaffold.go:447): take the absolute form of the out
path (already absolute here, so filepath.Abs is the identity), refuse it
unless it is contained in the target directory, otherwise write it. -/
def saveFile (targetDir out : List Comp) (content : String) (fs : FS1) :
    Except WriteErr FS1 :=
  if containedInDir (renderPath out) (renderPath targetDir) then
    .ok (fsWrite fs out content)
  else
    .error (.notInTargetDir out targetDir)

/-- Model of the write template callback (scaffold.go:275): it calls
saveAndPostFile on filepath.Join(targetDir, out). saveAndPostFile is
saveFile followed by postFile; postFile only runs external post-processing
commands and creates no files itself, so it is not part of the file system
model. -/
def writeTemplateFunc (targetDir : List Comp) (out : List Comp)
    (content : String) (fs : FS1) : Except WriteErr FS1 :=
  saveFile targetDir (joinAbs targetDir out) content fs

/-- A render executes the template tree; every write request a template
makes through the write callback is processed in order. An error from the
callback makes the template execution, and with it the whole render, fail:
the pair returned is the file system at that point and the error. -/
def runWrites (targetDir : List Comp) :
    List (List Comp × String) → FS1 → FS1 × Option WriteErr
  | [], fs => (fs, none)
  | (out, content) :: rest, fs =>
    match writeTemplateFunc targetDir out content fs with
    | .error e => (fs, some e)
    | .ok fs' => runWrites targetDir rest fs'

/-- C4: the path guard predicate equals the specification disjunction
(path is dir itself, or extends dir past a separator), and consequently
the path /tmp/foobar is not contained in the directory /tmp/foo. -/
theorem containedInDir_correct :
    (∀ path dir : List Char,
      containedInDir path dir = true ↔ containedInDirSpec path dir)
    ∧ containedInDir (toChars "/tmp/foobar") (toChars "/tmp/foo") = false := by
  constructor
  · intro path dir
    unfold containedInDir containedInDirSpec
    rw [Bool.or_eq_true, beq_iff_eq, List.isPrefixOf_iff_prefix]
    constructor
    · rintro (h | ⟨t, ht⟩)
      · exact Or.inl h
      · exact Or.inr ⟨t, by simpa [List.append_assoc] using ht.symm⟩
    · rintro (h | ⟨rest, hrest⟩)
      · exact Or.inl h
      · exact Or.inr ⟨rest, by simp [hrest]⟩
  · decide

/-- C1: writes made through the write template callback never create a file
outside the target directory. First conjunct: whatever the templates
request, every file in the resulting file system was either already there
or lies inside targetDir. Second conjunct: a request whose cleaned absolute
form escapes targetDir (such as ../escape.txt) makes the render fail with
the containment error, and the file system is left exactly as it was
before that request, so no file is created at the escaping path. -/
theorem render_writes_contained (targetDir : List Comp)
    (reqs : List (List Comp × String)) (fs : FS1) :
    (∀ p c, (p, c) ∈ (runWrites targetDir reqs fs).1 →
        (p, c) ∈ fs ∨
          containedInDir (renderPath p) (renderPath targetDir) = true)
    ∧ (∀ out content, (out, content) ∈ reqs →
        containedInDir (renderPath (joinAbs targetDir out))
            (renderPath targetDir) = false →
          (runWrites targetDir reqs fs).2.isSome) := by
  induction reqs generalizing fs with
  | nil =>
    refine ⟨fun p c hp => Or.inl hp, fun out content h => absurd h (by simp)⟩
  | cons req rest ih =>
    obtain ⟨out, content⟩ := req
    by_cases hc :
        containedInDir (renderPath (joinAbs targetDir out))
          (renderPath targetDir) = true
    · have hrun : runWrites targetDir ((out, content) :: rest) fs =
          runWrites targetDir rest
            (fsWrite fs (joinAbs targetDir out) content) := by
        simp [runWrites, writeTemplateFunc, saveFile, hc]
      constructor
      · intro p c hp
        rw [hrun] at hp
        rcases ((ih _).1 p c hp) with h | h
        · unfold fsWrite at h
          split at h
          · rcases List.mem_map.mp h with ⟨e, he, heq⟩
            by_cases hep : e.1 = joinAbs targetDir out
            · simp only [hep, if_pos] at heq
              injection heq with h1 h2
              subst h1
              exact Or.inr hc
            · simp only [hep, if_neg, if_false] at heq
              exact Or.inl (heq ▸ he)
          · rcases List.mem_append.mp h with h | h
            · exact Or.inl h
            · simp only [List.mem_singleton] at h
              injection h with h1 h2
              subst h1
              exact Or.inr hc
        · exact Or.inr h
      · intro out' content' hmem hnc
        rw [hrun]
        rcases List.mem_cons.mp hmem with heq | hmem'
        · exfalso
          injection heq with h1 h2
          rw [h1] at hnc
          rw [hnc] at hc
          exact Bool.false_ne_true hc
        · exact (ih _).2 out' content' hmem' hnc
    · have hc' :
          containedInDir (renderPath (joinAbs targetDir out))
            (renderPath targetDir) = false := by
        simpa using hc
      have hrun : runWrites targetDir ((out, content) :: rest) fs =
          (fs, some (.notInTargetDir (joinAbs targetDir out) targetDir)) := by
        simp [runWrites, writeTemplateFunc, saveFile, hc']
      refine ⟨fun p c hp => ?_, fun out' content' hmem hnc => ?_⟩
      · rw [hrun] at hp
        exact Or.inl hp
      · rw [hrun]
        simp

/-- Witness for C1 at a concrete input: rendering with target /tmp/x a
template that calls write with the relative path ../escape.txt fails (the
error option is set), because the cleaned absolute path /tmp/escape.txt is
not contained in /tmp/x. -/
theorem render_writes_contained_witness :
    (runWrites [toChars "tmp", toChars "x"]
        [([toChars "..", toChars "escape.txt"], "bad")] []).2.isSome :=
  (render_writes_contained [toChars "tmp", toChars "x"]
      [([toChars "..", toChars "escape.txt"], "bad")] []).2
    [toChars "..", toChars "escape.txt"] "bad" (by simp) (by decide)

/-- The action a render plan records for one managed file
(scaffold.go:74-88). -/
inductive FileAction where
  | add
  | update
  | equal
  | remove
deriving Repr, DecidableEq

/-- One file of a render plan: its target-relative slash path and the
action taken on it (scaffold.go:84-88). -/
structure ManagedFile where
  path : String
  action : FileAction
deriving Repr, DecidableEq

/-- The target directory contents: an association list from target-relative
slash paths to file contents (only regular files are modelled; hashes are
the contents themselves, since sha256File is used only for equality). -/
abbrev FS2 := List (String × String)

/-- Existence and content query against a directory: some content when the
file exists (os.Stat succeeds), none otherwise. -/
def lookupFS : FS2 → String → Option String
  | [], _ => none
  | e :: rest, p => if e.1 = p then some e.2 else lookupFS rest p

/-- atomicCopyFile to a path inside a directory: replace the content when
the destination exists, otherwise create the file. -/
def setFS (fs : FS2) (p c : String) : FS2 :=
  if fs.any (fun e => e.1 = p) then
    fs.map (fun e => if e.1 = p then (p, c) else e)
  else fs ++ [(p, c)]

/-- Model of copyTreeToTarget (scaffold.go:575): walk the staged files in
order; a staged file missing from the target is copied and reported add; an
existing one is reported equal without a write when the hashes match, and
copied and reported update otherwise. -/
def copyTreeToTarget : List (String × String) → FS2 → FS2 × List ManagedFile
  | [], target => (target, [])
  | (rel, content) :: rest, target =>
    match lookupFS target rel with
    | some existing =>
      if content = existing then
        let r := copyTreeToTarget rest target
        (r.1, ⟨rel, .equal⟩ :: r.2)
      else
        let r := copyTreeToTarget rest (setFS target rel content)
        (r.1, ⟨rel, .update⟩ :: r.2)
    | none =>
      let r := copyTreeToTarget rest (setFS target rel content)
      (r.1, ⟨rel, .add⟩ :: r.2)

/-- The plan is sorted ascending by path (sort.Slice on Path less-than). -/
def sortPlan (l : List ManagedFile) : List ManagedFile :=
  l.mergeSort (fun a b => decide (a.path ≤ b.path))

/-- Model of Render (scaffold.go:790): renderToDir produces the staged
tree for the given data (deterministic in the data, so rendering the same
data twice stages the same files); the stage is then committed to the
target by copyTreeToTarget and the plan is sorted by path. -/
def Render (stage : List (String × String)) (target : FS2) :
    FS2 × List ManagedFile :=
  let r := copyTreeToTarget stage target
  (r.1, sortPlan r.2)

/-- The add or update or equal decision RenderNoop makes for one staged
file against the real target (scaffold.go:677-698): add when the real file
does not exist, equal when the hashes match, update otherwise. -/
def actionFor (target : FS2) (rel content : String) : FileAction :=
  match lookupFS target rel with
  | none => .add
  | some existing => if content = existing then .equal else .update

/-- Model of RenderNoop (scaffold.go:639): render the same stage as Render
would, compare every staged file against the real target, add a remove
entry for every real target file not present in the stage, sort the plan
by path, and leave the real target untouched. -/
def RenderNoop (stage : List (String × String)) (target : FS2) :
    FS2 × List ManagedFile :=
  let compare := stage.map (fun e => ManagedFile.mk e.1 (actionFor target e.1 e.2))
  let removes :=
    (target.filter (fun e => !(stage.any (fun s => s.1 = e.1)))).map
      (fun e => ManagedFile.mk e.1 .remove)
  (target, sortPlan (compare ++ removes))

theorem lookupFS_append_of_none (fs : FS2) (tail : FS2) (p : String)
    (h : lookupFS fs p = none) :
    lookupFS (fs ++ tail) p = lookupFS tail p := by
  induction fs with
  | nil => rfl
  | cons e rest ih =>
    by_cases hep : e.1 = p
    · simp [lookupFS, hep] at h
    · simp only [lookupFS, hep, if_neg, if_false] at h
      simp only [List.cons_append, lookupFS, hep, if_neg, if_false]
      exact ih h

theorem lookupFS_map_update_self (fs : FS2) (p c : String)
    (h : ∃ x ∈ fs, x.1 = p) :
    lookupFS (fs.map (fun e => if e.1 = p then (p, c) else e)) p = some c := by
  induction fs with
  | nil => simp at h
  | cons e rest ih =>
    by_cases hep : e.1 = p
    · simp [lookupFS, hep]
    · simp only [List.map_cons, hep, if_neg, if_false, lookupFS]
      rcases h with ⟨x, hx, hxp⟩
      rcases List.mem_cons.mp hx with rfl | hx'
      · exact absurd hxp hep
      · exact ih ⟨x, hx', hxp⟩

theorem lookupFS_map_update_ne (fs : FS2) (p c q : String) (h : q ≠ p) :
    lookupFS (fs.map (fun e => if e.1 = p then (p, c) else e)) q =
      lookupFS fs q := by
  induction fs with
  | nil => rfl
  | cons e rest ih =>
    by_cases hep : e.1 = p
    · have hpq : ¬(p = q) := fun hh => h hh.symm
      have heq : ¬(e.1 = q) := by rw [hep]; exact hpq
      simp [lookupFS, hep, hpq, heq, ih]
    · by_cases heq : e.1 = q
      · simp only [List.map_cons, if_neg hep]
        simp [lookupFS, heq]
      · simp only [List.map_cons, if_neg hep]
        simp [lookupFS, heq, ih]

theorem lookupFS_append_singleton_ne (fs : FS2) (p c q : String)
    (h : q ≠ p) :
    lookupFS (fs ++ [(p, c)]) q = lookupFS fs q := by
  induction fs with
  | nil =>
    have : ¬(p = q) := fun hh => h hh.symm
    simp [lookupFS, this]
  | cons e rest ih =>
    by_cases heq : e.1 = q
    · simp [lookupFS, heq]
    · simp only [List.cons_append, lookupFS, heq, if_neg, if_false]
      exact ih

theorem lookupFS_none_of_any_false (fs : FS2) (p : String)
    (h : ¬((fs.any fun e => decide (e.1 = p)) = true)) :
    lookupFS fs p = none := by
  induction fs with
  | nil => rfl
  | cons e rest ih =>
    have he : ¬(e.1 = p) := fun hep => h (by simp [hep])
    have hr : ¬((rest.any fun e => decide (e.1 = p)) = true) :=
      fun hrest => h (by simp [List.any_cons, hrest])
    simp [lookupFS, he, ih hr]

theorem lookupFS_setFS_self (fs : FS2) (p c : String) :
    lookupFS (setFS fs p c) p = some c := by
  unfold setFS
  split
  · rename_i hany
    rcases List.any_eq_true.mp hany with ⟨x, hx, hxp⟩
    simp only [decide_eq_true_eq] at hxp
    exact lookupFS_map_update_self fs p c ⟨x, hx, hxp⟩
  · rename_i hany
    rw [lookupFS_append_of_none fs _ p (lookupFS_none_of_any_false fs p hany)]
    simp [lookupFS]

theorem lookupFS_setFS_ne (fs : FS2) (p c q : String) (h : q ≠ p) :
    lookupFS (setFS fs p c) q = lookupFS fs q := by
  unfold setFS
  split
  · exact lookupFS_map_update_ne fs p c q h
  · exact lookupFS_append_singleton_ne fs p c q h

theorem copyTree_lookup_not_staged (stage : List (String × String))
    (target : FS2) (p : String) (h : p ∉ stage.map Prod.fst) :
    lookupFS (copyTreeToTarget stage target).1 p = lookupFS target p := by
  induction stage generalizing target with
  | nil => rfl
  | cons e rest ih =>
    obtain ⟨rel, content⟩ := e
    have hne : p ≠ rel := by
      intro hh
      exact h (by simp [hh])
    have hrest : p ∉ rest.map Prod.fst := by
      intro hh
      exact h (by simp [hh])
    cases hl : lookupFS target rel with
    | some existing =>
      by_cases hc : content = existing
      · simp only [copyTreeToTarget, hl, hc, if_pos]
        exact ih target hrest
      · simp only [copyTreeToTarget, hl, hc, if_neg, if_false]
        rw [ih _ hrest]
        exact lookupFS_setFS_ne target rel content p hne
    | none =>
      simp only [copyTreeToTarget, hl]
      rw [ih _ hrest]
      exact lookupFS_setFS_ne target rel content p hne

theorem copyTree_lookup_staged (stage : List (String × String))
    (target : FS2) (h : (stage.map Prod.fst).Nodup) (p c : String)
    (hmem : (p, c) ∈ stage) :
    lookupFS (copyTreeToTarget stage target).1 p = some c := by
  induction stage generalizing target with
  | nil => simp at hmem
  | cons e rest ih =>
    obtain ⟨rel, content⟩ := e
    simp only [List.map_cons] at h
    have hn := List.nodup_cons.mp h
    rcases List.mem_cons.mp hmem with heq | hmem'
    · injection heq with h1 h2
      subst h1; subst h2
      have hnot : p ∉ rest.map Prod.fst := hn.1
      cases hl : lookupFS target p with
      | some existing =>
        by_cases hc : c = existing
        · simp only [copyTreeToTarget, hl, hc, if_pos]
          rw [copyTree_lookup_not_staged rest target p hnot, hl]
        · simp only [copyTreeToTarget, hl, hc, if_neg, if_false]
          rw [copyTree_lookup_not_staged rest _ p hnot]
          exact lookupFS_setFS_self target p c
      | none =>
        simp only [copyTreeToTarget, hl]
        rw [copyTree_lookup_not_staged rest _ p hnot]
        exact lookupFS_setFS_self target p c
    · cases hl : lookupFS target rel with
      | some existing =>
        by_cases hc : content = existing
        · simp only [copyTreeToTarget, hl, hc, if_pos]
          exact ih _ hn.2 hmem'
        · simp only [copyTreeToTarget, hl, hc, if_neg, if_false]
          exact ih _ hn.2 hmem'
      | none =>
        simp only [copyTreeToTarget, hl]
        exact ih _ hn.2 hmem'

theorem copyTree_all_equal (stage : List (String × String)) (target : FS2)
    (h : ∀ p c, (p, c) ∈ stage → lookupFS target p = some c) :
    copyTreeToTarget stage target =
      (target, stage.map (fun e => ⟨e.1, .equal⟩)) := by
  induction stage with
  | nil => rfl
  | cons e rest ih =>
    obtain ⟨rel, content⟩ := e
    have hl : lookupFS target rel = some content :=
      h rel content (List.mem_cons_self ..)
    have ihr := ih (fun p c hp => h p c (List.mem_cons_of_mem _ hp))
    simp [copyTreeToTarget, hl, ihr]

/-- C2: rendering the same data twice in a row (same stage) leaves the
target unchanged on the second run and produces a second plan whose every
entry has action equal: unchanged files are not rewritten. -/
theorem render_idempotent (stage : List (String × String)) (target : FS2)
    (h : (stage.map Prod.fst).Nodup) :
    (Render stage (Render stage target).1).1 = (Render stage target).1
    ∧ ∀ mf ∈ (Render stage (Render stage target).1).2,
        mf.action = .equal := by
  have hall : ∀ p c, (p, c) ∈ stage →
      lookupFS (Render stage target).1 p = some c := by
    intro p c hp
    exact copyTree_lookup_staged stage target h p c hp
  have hsecond : copyTreeToTarget stage (Render stage target).1 =
      ((Render stage target).1, stage.map (fun e => ⟨e.1, .equal⟩)) :=
    copyTree_all_equal _ _ hall
  constructor
  · show (copyTreeToTarget stage (Render stage target).1).1 = _
    rw [hsecond]
  · intro mf hmf
    have : mf ∈ (copyTreeToTarget stage (Render stage target).1).2 := by
      unfold Render sortPlan at hmf ⊢
      exact List.mem_mergeSort.mp hmf
    rw [hsecond] at this
    rcases List.mem_map.mp this with ⟨e, _, heq⟩
    rw [← heq]

/-- Witness for C2 at a concrete input: with a one-file stage and an empty
pre-existing target, the state after the second render is the state after
the first, and every entry of the second plan is equal. -/
theorem render_idempotent_witness :
    (Render [("hello.txt", "Hello World")]
        (Render [("hello.txt", "Hello World")] []).1).1 =
      (Render [("hello.txt", "Hello World")] []).1
    ∧ ∀ mf ∈ (Render [("hello.txt", "Hello World")]
        (Render [("hello.txt", "Hello World")] []).1).2,
        mf.action = .equal :=
  render_idempotent [("hello.txt", "Hello World")] [] (by decide)

/-- C3: RenderNoop leaves the real target untouched; for every staged file
it reports add when the file is absent from the target, equal when the
content hash matches, update when it differs; and it reports remove for
exactly the target files absent from the stage. -/
theorem renderNoop_spec (stage : List (String × String)) (target : FS2) :
    (RenderNoop stage target).1 = target
    ∧ (∀ p c, (p, c) ∈ stage →
        (lookupFS target p = none →
          ManagedFile.mk p .add ∈ (RenderNoop stage target).2)
        ∧ (lookupFS target p = some c →
          ManagedFile.mk p .equal ∈ (RenderNoop stage target).2)
        ∧ (∀ c', lookupFS target p = some c' → c ≠ c' →
          ManagedFile.mk p .update ∈ (RenderNoop stage target).2))
    ∧ (∀ p c, (p, c) ∈ target → p ∉ stage.map Prod.fst →
        ManagedFile.mk p .remove ∈ (RenderNoop stage target).2)
    ∧ (∀ mf ∈ (RenderNoop stage target).2, mf.action = .remove →
        mf.path ∈ target.map Prod.fst ∧ mf.path ∉ stage.map Prod.fst) := by
  have hmem : ∀ mf, mf ∈ (RenderNoop stage target).2 ↔
      mf ∈ stage.map (fun e => ManagedFile.mk e.1 (actionFor target e.1 e.2))
        ++ (target.filter (fun e => !(stage.any (fun s => s.1 = e.1)))).map
            (fun e => ManagedFile.mk e.1 .remove) := by
    intro mf
    unfold RenderNoop sortPlan
    exact List.mem_mergeSort
  refine ⟨rfl, ?_, ?_, ?_⟩
  · intro p c hp
    have base : ManagedFile.mk p (actionFor target p c) ∈
        (RenderNoop stage target).2 := by
      rw [hmem]
      exact List.mem_append_left _
        (List.mem_map.mpr ⟨(p, c), hp, rfl⟩)
    refine ⟨fun hl => ?_, fun hl => ?_, fun c' hl hne => ?_⟩
    · simpa [actionFor, hl] using base
    · simpa [actionFor, hl] using base
    · have : actionFor target p c = .update := by
        simp [actionFor, hl, hne]
      rw [this] at base
      exact base
  · intro p c hp hnot
    rw [hmem]
    refine List.mem_append_right _ (List.mem_map.mpr ⟨(p, c), ?_, rfl⟩)
    refine List.mem_filter.mpr ⟨hp, ?_⟩
    simp only [Bool.not_eq_true']
    refine List.any_eq_false.mpr (fun s hs hsp => ?_)
    exact hnot (List.mem_map.mpr ⟨s, hs, of_decide_eq_true hsp⟩)
  · intro mf hmf hrem
    rw [hmem] at hmf
    rcases List.mem_append.mp hmf with hmf | hmf
    · exfalso
      rcases List.mem_map.mp hmf with ⟨e, _, heq⟩
      rw [← heq] at hrem
      simp only [ManagedFile.mk.injEq] at hrem
      unfold actionFor at hrem
      split at hrem
      · exact absurd hrem (by decide)
      · split at hrem <;> exact absurd hrem (by decide)
    · rcases List.mem_map.mp hmf with ⟨e, he, heq⟩
      have hef := List.mem_filter.mp he
      rw [← heq]
      constructor
      · exact List.mem_map.mpr ⟨e, hef.1, rfl⟩
      · intro hin
        rcases List.mem_map.mp hin with ⟨s, hs, hsp⟩
        have h1 := hef.2
        simp only [Bool.not_eq_true'] at h1
        have h2 := List.any_eq_false.mp h1 s hs
        have h3 : ¬(s.1 = e.1) := by simpa using h2
        exact h3 hsp

/-- Witness for C3 at a concrete input: with a stage producing only
main.txt and a real target holding only extra.txt, RenderNoop reports
remove for extra.txt, reports add for main.txt, and leaves the target
unchanged. -/
theorem renderNoop_spec_witness :
    ManagedFile.mk "extra.txt" .remove ∈
      (RenderNoop [("main.txt", "x")] [("extra.txt", "y")]).2
    ∧ ManagedFile.mk "main.txt" .add ∈
      (RenderNoop [("main.txt", "x")] [("extra.txt", "y")]).2
    ∧ (RenderNoop [("main.txt", "x")] [("extra.txt", "y")]).1 =
      [("extra.txt", "y")] :=
  ⟨(renderNoop_spec [("main.txt", "x")] [("extra.txt", "y")]).2.2.1
      "extra.txt" "y" (by decide) (by decide),
   ((renderNoop_spec [("main.txt", "x")] [("extra.txt", "y")]).2.1
      "main.txt" "x" (by decide)).1 (by decide),
   (renderNoop_spec [("main.txt", "x")] [("extra.txt", "y")]).1⟩

/-- The engine selector (scaffold.go:67-72). -/
inductive EngineType where
  | goTemplate
  | jet
deriving Repr, DecidableEq

/-- One template function installed into an engine run: a sprig helper, a
caller supplied function, or one of the two callbacks the scaffold itself
injects (write and render). The behaviour of the functions is external to
this model; only their identity matters here. -/
inductive TplFunc where
  | sprigFn (name : String)
  | userFn (name : String)
  | writeFn
  | renderFn
deriving Repr, DecidableEq

/-- A Go function map, modelled as a pure key to value map (Go maps are
unordered key stores). -/
abbrev FuncMap := String → Option TplFunc

/-- Map assignment funcs k = v. -/
def insertFn (m : FuncMap) (k : String) (v : TplFunc) : FuncMap :=
  fun q => if q = k then some v else m q

/-- Copy a list of caller supplied functions into a base map, in order. -/
def ofUserFuncs (user : List (String × TplFunc)) (base : FuncMap) : FuncMap :=
  user.foldl (fun m e => insertFn m e.1 e.2) base

/-- The sprig helper library map, given the names it exports. -/
def sprigFuncMap (names : List String) : FuncMap :=
  fun q => if q ∈ names then some (.sprigFn q) else none

/-- The empty function map. -/
def emptyFuncMap : FuncMap := fun _ => none

/-- The fields of the Scaffold struct (scaffold.go:90) that the engine run
configuration depends on: the chosen engine, the caller supplied function
maps, and the relevant Config fields. -/
structure ScaffoldInst where
  engine : EngineType
  funcs : List (String × TplFunc)
  jetFuncs : List (String × TplFunc)
  skipEmpty : Bool
  leftDelim : String
  rightDelim : String

/-- Model of templateFuncs (scaffold.go:269): start from the sprig map,
copy the caller supplied functions over it, then install the write and the
render callbacks. -/
def templateFuncs (sprig : List String) (s : ScaffoldInst) : FuncMap :=
  insertFn
    (insertFn (ofUserFuncs s.funcs (sprigFuncMap sprig)) "write" .writeFn)
    "render" .renderFn

/-- Model of jetTemplateFuncs (scaffold.go:292): copy the caller supplied
Jet functions into a fresh map, then install the write and the render
callbacks. -/
def jetTemplateFuncs (s : ScaffoldInst) : FuncMap :=
  insertFn (insertFn (ofUserFuncs s.jetFuncs emptyFuncMap) "write" .writeFn)
    "render" .renderFn

/-- The custom delimiters handed to the engine: both, when both are set
(templ.Delims and jet.WithDelims are called only then), otherwise the
engine defaults. -/
def execDelims (s : ScaffoldInst) : Option (String × String) :=
  if s.leftDelim ≠ "" ∧ s.rightDelim ≠ "" then some (s.leftDelim, s.rightDelim)
  else none

/-- What one engine run receives: the installed function map and the
delimiters. -/
structure ExecSpec where
  funcs : FuncMap
  delims : Option (String × String)

/-- The engine run configuration built by renderTemplateBytes
(scaffold.go:346): the Jet path installs jetTemplateFuncs, the default
path installs templateFuncs; both honor the custom delimiters. -/
def execSpec (sprig : List String) (s : ScaffoldInst) : ExecSpec :=
  match s.engine with
  | .jet => ⟨jetTemplateFuncs s, execDelims s⟩
  | .goTemplate => ⟨templateFuncs sprig s, execDelims s⟩

/-- The engine run configuration used by RenderString (scaffold.go:160):
RenderString calls renderTemplateBytes on the string, so the run is
configured exactly as a file render. -/
def renderStringExecSpec (sprig : List String) (s : ScaffoldInst) : ExecSpec :=
  execSpec sprig s

/-- Render pipeline errors: the internal skipped-rendering sentinel
(errSkippedEmpty, scaffold.go:65), a containment failure from saveFile,
or a post-processing failure. -/
inductive RenderErr where
  | skippedEmpty
  | write (e : WriteErr)
  | postFailed (msg : String)
deriving Repr, DecidableEq

/-- The whitespace test of bytes.TrimSpace, restricted to the space code
points representable in this model (ASCII spacing plus NEL and NBSP). A
rendered result is skipped when trimming leaves nothing, i.e. when every
character is a space. -/
def isGoSpace (c : Char) : Bool :=
  c = ' ' || c = '\t' || c = '\n' || c = '\r' || c = '\x0b' || c = '\x0c'

/-- len(bytes.TrimSpace(buf)) == 0 is equivalent to every character of the
buffer being whitespace. -/
def whitespaceOnly (s : String) : Bool := s.toList.all isGoSpace

/-- Model of the tail of renderTemplateBytesGoTempl (scaffold.go:355): the
engine has parsed and executed the template producing the buffer given as
the rendered argument (parse and execute failures are external errors that
propagate unchanged and are out of scope); when SkipEmpty is set and the
buffer is whitespace-only the sentinel is returned, otherwise the bytes. -/
def renderTemplateBytesGoTempl (s : ScaffoldInst) (rendered : String) :
    Except RenderErr String :=
  if s.skipEmpty ∧ whitespaceOnly rendered then .error .skippedEmpty
  else .ok rendered

/-- Model of the tail of renderTemplateBytesJet (scaffold.go:384), which
performs the identical SkipEmpty check. -/
def renderTemplateBytesJet (s : ScaffoldInst) (rendered : String) :
    Except RenderErr String :=
  if s.skipEmpty ∧ whitespaceOnly rendered then .error .skippedEmpty
  else .ok rendered

/-- Model of renderTemplateBytes (scaffold.go:346): dispatch on the
engine. -/
def renderTemplateBytes (s : ScaffoldInst) (rendered : String) :
    Except RenderErr String :=
  match s.engine with
  | .jet => renderTemplateBytesJet s rendered
  | .goTemplate => renderTemplateBytesGoTempl s rendered

/-- Model of RenderString (scaffold.go:160): render the string through
renderTemplateBytes and return the result; any error is returned to the
caller unchanged. -/
def RenderString (s : ScaffoldInst) (rendered : String) :
    Except RenderErr String :=
  match renderTemplateBytes s rendered with
  | .error e => .error e
  | .ok res => .ok res

/-- Model of renderFile (scaffold.go:465): render the template bytes, then
saveFile the result at the out path under the current target directory. -/
def renderFile (s : ScaffoldInst) (targetDir out : List Comp)
    (rendered : String) (fs : FS1) : Except RenderErr FS1 :=
  match renderTemplateBytes s rendered with
  | .error e => .error e
  | .ok res =>
    match saveFile targetDir out res fs with
    | .error e => .error (.write e)
    | .ok fs' => .ok fs'

/-- Model of renderAndPostFile (scaffold.go:244): when renderFile fails
with the errSkippedEmpty sentinel the file is skipped and the walk
continues successfully; any other error propagates; on success the
post-processing step (an external subprocess, given as the post argument)
runs on the staged tree. -/
def renderAndPostFile (s : ScaffoldInst) (targetDir out : List Comp)
    (rendered : String) (post : FS1 → Except RenderErr FS1) (fs : FS1) :
    Except RenderErr FS1 :=
  match renderFile s targetDir out rendered fs with
  | .error e => if e = .skippedEmpty then .ok fs else .error e
  | .ok fs' => post fs'

/-- C6 counterexample: on a concrete scaffold (default Go engine, no user
functions), the function map that RenderString hands to the engine does
contain the write and the render callbacks, so invoking write or render
from a string rendered through RenderString is possible, contradicting the
claim that those callbacks are unavailable there. -/
theorem renderString_funcs_counterexample :
    (renderStringExecSpec []
        ⟨.goTemplate, [], [], false, "", ""⟩).funcs "write" = some .writeFn
    ∧ (renderStringExecSpec []
        ⟨.goTemplate, [], [], false, "", ""⟩).funcs "render" =
          some .renderFn := by
  constructor <;> rfl

/-- C6 amended: RenderString evaluates with exactly the same engine run
configuration (function map and delimiters) as file rendering, and that
configuration always includes the write and the render callbacks, for
every scaffold and every sprig helper set. -/
theorem renderString_same_engine_run (sprig : List String)
    (s : ScaffoldInst) :
    renderStringExecSpec sprig s = execSpec sprig s
    ∧ (renderStringExecSpec sprig s).funcs "write" = some .writeFn
    ∧ (renderStringExecSpec sprig s).funcs "render" = some .renderFn := by
  refine ⟨rfl, ?_, ?_⟩ <;>
    cases hs : s.engine <;>
      simp [renderStringExecSpec, execSpec, hs, templateFuncs,
        jetTemplateFuncs, insertFn]

/-- C7 counterexample: with SkipEmpty configured, a string that renders to
whitespace (here a single space, the output of the constant template
consisting of one space) makes RenderString return the errSkippedEmpty
sentinel as an error to its caller, contradicting the claim that the skip
decision is never propagated as an error from any public operation. The
source test suite expects exactly this: MatchError(errSkippedEmpty). -/
theorem renderString_skipEmpty_counterexample :
    RenderString ⟨.goTemplate, [], [], true, "", ""⟩ " " =
      .error .skippedEmpty := by
  rfl

/-- C7 amended: for files rendered by the walk the skip decision is an
internal sentinel, not a failure: renderAndPostFile succeeds and stages
nothing for a whitespace-only result, for every configuration with
SkipEmpty set, every path and every post-processing step. RenderString
however returns the sentinel to its caller as an error. -/
theorem skipEmpty_sentinel_internal (s : ScaffoldInst)
    (targetDir out : List Comp) (rendered : String)
    (post : FS1 → Except RenderErr FS1) (fs : FS1)
    (hskip : s.skipEmpty = true) (hws : whitespaceOnly rendered = true) :
    renderAndPostFile s targetDir out rendered post fs = .ok fs
    ∧ RenderString s rendered = .error .skippedEmpty := by
  have hrt : renderTemplateBytes s rendered = .error .skippedEmpty := by
    unfold renderTemplateBytes renderTemplateBytesJet
      renderTemplateBytesGoTempl
    cases s.engine <;> simp [hskip, hws]
  constructor
  · unfold renderAndPostFile renderFile
    rw [hrt]
    rfl
  · unfold RenderString
    rw [hrt]

/-- Witness for the C7 amended theorem at a concrete input: a scaffold
with SkipEmpty set, the whitespace-only rendered result, the identity
post-processing step and an empty stage. -/
theorem skipEmpty_sentinel_internal_witness :
    renderAndPostFile ⟨.goTemplate, [], [], true, "", ""⟩
        [toChars "tmp", toChars "t"] [toChars "tmp", toChars "t",
          toChars "a.txt"] " " (fun fs => .ok fs) [] = .ok []
    ∧ RenderString ⟨.goTemplate, [], [], true, "", ""⟩ " " =
        .error .skippedEmpty :=
  skipEmpty_sentinel_internal ⟨.goTemplate, [], [], true, "", ""⟩
    [toChars "tmp", toChars "t"]
    [toChars "tmp", toChars "t", toChars "a.txt"] " "
    (fun fs => .ok fs) [] rfl (by decide)

end Scaffold

namespace Forms

/-- One dynamically typed answer value, the any payload of the forms
package: nil, string, integer, bool, map, list, or float. Go float64
values appear in this development only as carriers of the literal the
user typed, since floating point arithmetic is never performed on them. -/
inductive Value where
  | vNil
  | vStr (s : String)
  | vInt (n : Int)
  | vFloat (lit : String)
  | vBool (b : Bool)
  | vMap (m : List (String × Value))
  | vList (l : List Value)
deriving Repr

/-- Go map assignment m[k] = v on the association-list representation of a
map[string]any: replace the value when the key exists, else append. -/
def insertKV (m : List (String × Value)) (k : String) (v : Value) :
    List (String × Value) :=
  if m.any (fun e => e.1 = k) then
    m.map (fun e => if e.1 = k then (k, v) else e)
  else m ++ [(k, v)]

/-- Merge the entries of the map m into the accumulator map, in order:
the loop for k, v := range e applied to one child map. -/
def mergeInto (acc m : List (String × Value)) : List (String × Value) :=
  m.foldl (fun a kv => insertKV a kv.1 kv.2) acc

/-- The entry tree (forms/graph.go): three node variants sharing an
ordered children list. objE carries a map and the arrayMode flag
(forms/object_entry.go:23), strE carries a string used as a map key, arrE
carries a slice. The parent back-reference exists in the source only as
the single-parent guard and never for traversal, so the pure value view
of the tree omits it; the guard itself is modelled separately by the
mutable arena below. -/
inductive Entry where
  | objE (isSet : Bool) (val : List (String × Value)) (arrayMode : Bool)
      (children : List Entry)
  | strE (isSet : Bool) (val : String) (children : List Entry)
  | arrE (isSet : Bool) (val : List Value) (children : List Entry)
deriving Repr

/-- newObjectEntry (forms/object_entry.go:12): a fresh object node with
the given map, set at creation. -/
def newObjectEntry (v : List (String × Value)) : Entry := .objE true v false []

/-- newStringEntry: a fresh key node with the given string, set at
creation. -/
def newStringEntry (v : String) : Entry := .strE true v []

/-- newArrayEntry: a fresh array node with the given slice, set at
creation. -/
def newArrayEntry (v : List Value) : Entry := .arrE true v []

/-- objModeCombined (forms/object_entry.go:65) applied to the already
computed child results: collect the child combined values that are maps
(in child order, regardless of the child isSet flag), merge them into one
map, and return it under the key, or directly when the key is empty. -/
def objModeCombined (key : String) (cvs : List (Bool × Value)) :
    Bool × Value :=
  let childMaps := cvs.foldr
    (fun bv acc => match bv.2 with | .vMap m => m :: acc | _ => acc) []
  let merged := childMaps.foldl mergeInto []
  if key = "" then (true, .vMap merged) else (true, .vMap [(key, .vMap merged)])

mutual

/-- combinedValue, the pure fold over the entry tree
(forms/object_entry.go:92, the stringEntry file, forms/array_entry.go):
an object node without children yields its own map with its own isSet; a
set object node with children picks the first key of its map (empty when
the map is empty) and either wraps the first child (arrayMode) or merges
all child maps (objModeCombined); a key node wraps its single child value,
or the merge of its set map children, under its string; an array node
returns its slice with every child combined value appended, set exactly
when nonempty. -/
def combinedValue : Entry → Bool × Value
  | .objE isSet val arrayMode children =>
    match children with
    | [] => (isSet, .vMap val)
    | c0 :: cs =>
      if !isSet then (false, .vMap val)
      else
        let key := match val with | [] => "" | (k, _) :: _ => k
        if arrayMode then
          let r := combinedValue c0
          (r.1, .vMap [(key, r.2)])
        else objModeCombined key (combinedList (c0 :: cs))
  | .strE isSet val children =>
    if !isSet then (false, .vNil)
    else
      match children with
      | [c] => (true, .vMap [(val, (combinedValue c).2)])
      | cs =>
        let merged := (combinedList cs).foldl
          (fun acc bv =>
            if bv.1 then
              match bv.2 with | .vMap m => mergeInto acc m | _ => acc
            else acc) []
        (true, .vMap [(val, .vMap merged)])
  | .arrE _ val children =>
    let result := val ++ (combinedList children).map (fun bv => bv.2)
    (decide (0 < result.length), .vList result)

/-- combinedValue of every entry of a list, in order. -/
def combinedList : List Entry → List (Bool × Value)
  | [] => []
  | e :: es => combinedValue e :: combinedList es

end

theorem combinedList_eq_map (es : List Entry) :
    combinedList es = es.map combinedValue := by
  induction es with
  | nil => rfl
  | cons e rest ih => simp [combinedList, ih]

/-- The claim wording for the object node fold, written independently of
the source: with no children return the own map with the own isSet; with
children but unset return unset; otherwise take the single key k of the
map (empty string when the map has no key); in arrayMode wrap the one
Array child combined value under k; otherwise merge all child combined
maps and record the merge under k, or directly when k is empty. -/
def objCombinedClaim (isSet : Bool) (val : List (String × Value))
    (arrayMode : Bool) (children : List Entry) : Bool × Value :=
  if children.isEmpty then (isSet, .vMap val)
  else if !isSet then (false, .vMap val)
  else
    let k := match val.head? with | none => "" | some kv => kv.1
    if arrayMode then
      let r := combinedValue (children.headD (newArrayEntry []))
      (r.1, .vMap [(k, r.2)])
    else
      let childMaps := (children.map combinedValue).foldr
        (fun bv acc => match bv.2 with | .vMap m => m :: acc | _ => acc) []
      let merged := childMaps.foldl mergeInto []
      if k = "" then (true, .vMap merged)
      else (true, .vMap [(k, .vMap merged)])

/-- C5: the object node combinedValue of the source agrees with the claim
wording, for every isSet flag, every map, every arrayMode flag and every
children list. -/
theorem objEntry_combinedValue_correct (isSet : Bool)
    (val : List (String × Value)) (am : Bool) (children : List Entry) :
    combinedValue (.objE isSet val am children) =
      objCombinedClaim isSet val am children := by
  cases children with
  | nil => cases isSet <;> rfl
  | cons c0 cs =>
    cases isSet with
    | false => rfl
    | true =>
      cases am with
      | true => cases val <;> rfl
      | false =>
        cases val with
        | nil =>
          simp [combinedValue, objCombinedClaim, objModeCombined,
            combinedList_eq_map]
        | cons kv rest =>
          simp [combinedValue, objCombinedClaim, objModeCombined,
            combinedList_eq_map]

/-- The three node kinds of the arena view of the entry graph. -/
inductive NodeKind where
  | objK
  | strK
  | arrK
deriving Repr, DecidableEq

/-- One node of the mutable entry graph (forms/graph.go:37): the parent
guard, the ordered children as arena indices, and the objEntry arrayMode
flag, the only other field the adoption path mutates. The node payloads
are irrelevant to adoption and are carried by the pure Entry view above. -/
structure Node where
  kind : NodeKind
  parent : Option Nat := none
  children : List Nat := []
  arrayMode : Bool := false
deriving Repr, DecidableEq

instance : Inhabited Node := ⟨{ kind := .objK }⟩

/-- The arena of allocated nodes; entry references are indices. -/
abbrev Store := List Node

/-- Dereference an entry; out of range yields the default node. -/
def nodeAt (st : Store) (i : Nat) : Node := (st[i]?).getD default

/-- setParent (forms/graph.go:59): fail with parent already set when the
node was adopted before, otherwise store the passed entry reference (the
source passes the child itself from addChild). -/
def setParent (st : Store) (child : Nat) (e : Nat) : Store × Option String :=
  match (nodeAt st child).parent with
  | some _ => (st, some "parent already set")
  | none => (st.set child { nodeAt st child with parent := some e }, none)

/-- graph.addChild (forms/graph.go:45): call setParent on the child
(passing the child, as the source does), and only on success append the
child to this node. -/
def graphAddChild (st : Store) (parent child : Nat) : Store × Option String :=
  match setParent st child child with
  | (st', some e) => (st', some e)
  | (st', none) =>
    (st'.set parent
      { nodeAt st' parent with
          children := (nodeAt st' parent).children ++ [child] }, none)

/-- addChild with the concrete type dispatch of the entry variants:
objEntry.addChild (forms/object_entry.go:34) accepts obj and str children,
and an arr child only when no other children exist, setting arrayMode
before delegating (so arrayMode stays set even when the delegation then
fails); stringEntry.addChild accepts only obj children; arrayEntry does
not override addChild and delegates to graph.addChild for any child. -/
def addChild (st : Store) (parent child : Nat) : Store × Option String :=
  match (nodeAt st parent).kind with
  | .objK =>
    match (nodeAt st child).kind with
    | .objK => graphAddChild st parent child
    | .strK => graphAddChild st parent child
    | .arrK =>
      if (nodeAt st parent).children ≠ [] then
        (st, some "only one array child is supported")
      else
        graphAddChild
          (st.set parent { nodeAt st parent with arrayMode := true })
          parent child
  | .strK =>
    match (nodeAt st child).kind with
    | .objK => graphAddChild st parent child
    | _ => (st, some "incompatible type, only object child values are supported")
  | .arrK => graphAddChild st parent child

/-- The error a second adoption attempt produces: the parent guard message
when the second parent accepts the child kind, otherwise the type error
raised before the guard is consulted. -/
def secondAttemptMsg (st : Store) (parent child : Nat) : String :=
  match (nodeAt st parent).kind, (nodeAt st child).kind with
  | .strK, .strK => "incompatible type, only object child values are supported"
  | .strK, .arrK => "incompatible type, only object child values are supported"
  | .objK, .arrK =>
    if (nodeAt st parent).children ≠ [] then
      "only one array child is supported"
    else "parent already set"
  | _, _ => "parent already set"

theorem nodeAt_set_children (st : Store) (p : Nat) (v : Node)
    (hch : v.children = (nodeAt st p).children) (i : Nat) :
    (nodeAt (st.set p v) i).children = (nodeAt st i).children := by
  by_cases hip : p = i
  · subst hip
    by_cases hlt : p < st.length
    · rw [nodeAt, List.getElem?_set_self hlt, Option.getD_some, hch]
    · rw [List.set_eq_of_length_le (Nat.le_of_not_lt hlt)]
  · rw [nodeAt, List.getElem?_set_ne hip]
    rfl

theorem nodeAt_set_parent_eq (st : Store) (p : Nat) (v : Node)
    (hpar : v.parent = (nodeAt st p).parent) (i : Nat) :
    (nodeAt (st.set p v) i).parent = (nodeAt st i).parent := by
  by_cases hip : p = i
  · subst hip
    by_cases hlt : p < st.length
    · rw [nodeAt, List.getElem?_set_self hlt, Option.getD_some, hpar]
    · rw [List.set_eq_of_length_le (Nat.le_of_not_lt hlt)]
  · rw [nodeAt, List.getElem?_set_ne hip]
    rfl

/-- C9 counterexample: in an arena holding an object node 0, a key node 1
and an array node 2, node 2 is first adopted by node 0 (successfully);
the second attempt, by the key node 1, fails deterministically but with
the error incompatible type, only object child values are supported; not
with parent already set as the claim states. -/
theorem addChild_second_attempt_counterexample :
    (addChild [{ kind := .objK }, { kind := .strK }, { kind := .arrK }]
        0 2).2 = none
    ∧ (addChild
        (addChild [{ kind := .objK }, { kind := .strK }, { kind := .arrK }]
          0 2).1 1 2).2 =
      some "incompatible type, only object child values are supported" := by
  constructor <;> rfl

/-- C9 amended: a node with its parent guard already set is never adopted
again: any further addChild attempt, by any parent, fails deterministically
and appends the child to no node; the error is parent already set when the
second parent accepts the child kind (obj or str child of an object, obj
child of a key node, any child of an array node, arr first child of an
object), and the type error of the second parent otherwise. -/
theorem addChild_single_parent (st : Store) (p c : Nat)
    (h : (nodeAt st c).parent.isSome = true) :
    (addChild st p c).2 = some (secondAttemptMsg st p c)
    ∧ ∀ i, (nodeAt (addChild st p c).1 i).children =
        (nodeAt st i).children := by
  obtain ⟨e, he⟩ := Option.isSome_iff_exists.mp h
  have hgraph : ∀ st' : Store,
      (nodeAt st' c).parent = some e →
      graphAddChild st' p c = (st', some "parent already set") := by
    intro st' hp
    unfold graphAddChild setParent
    rw [hp]
  unfold addChild
  cases hpk : (nodeAt st p).kind with
  | objK =>
    cases hck : (nodeAt st c).kind with
    | objK =>
      rw [hgraph st he]
      exact ⟨by simp [secondAttemptMsg, hpk, hck], fun i => rfl⟩
    | strK =>
      rw [hgraph st he]
      exact ⟨by simp [secondAttemptMsg, hpk, hck], fun i => rfl⟩
    | arrK =>
      by_cases hc : (nodeAt st p).children ≠ []
      · rw [if_pos hc]
        exact ⟨by simp [secondAttemptMsg, hpk, hck, hc], fun i => rfl⟩
      · rw [if_neg hc]
        have hpres :
            (nodeAt (st.set p { nodeAt st p with arrayMode := true })
              c).parent = some e := by
          rw [nodeAt_set_parent_eq st p
            { nodeAt st p with arrayMode := true } rfl c]
          exact he
        rw [hgraph _ hpres]
        refine ⟨by simp [secondAttemptMsg, hpk, hck, hc], fun i => ?_⟩
        exact nodeAt_set_children st p
          { nodeAt st p with arrayMode := true } rfl i
  | strK =>
    cases hck : (nodeAt st c).kind with
    | objK =>
      rw [hgraph st he]
      exact ⟨by simp [secondAttemptMsg, hpk, hck], fun i => rfl⟩
    | strK => exact ⟨by simp [secondAttemptMsg, hpk, hck], fun i => rfl⟩
    | arrK => exact ⟨by simp [secondAttemptMsg, hpk, hck], fun i => rfl⟩
  | arrK =>
    rw [hgraph st he]
    exact ⟨by simp [secondAttemptMsg, hpk], fun i => rfl⟩

/-- Witness for the C9 amended theorem at a concrete input: after the
array node 2 is adopted by the object node 0, a further attempt by the key
node 1 yields exactly the computed second-attempt error and leaves every
children list unchanged. -/
theorem addChild_single_parent_witness :
    (addChild
        (addChild [{ kind := .objK }, { kind := .strK }, { kind := .arrK }]
          0 2).1 1 2).2 =
      some (secondAttemptMsg
        (addChild [{ kind := .objK }, { kind := .strK }, { kind := .arrK }]
          0 2).1 1 2)
    ∧ ∀ i, (nodeAt
        (addChild
          (addChild [{ kind := .objK }, { kind := .strK },
            { kind := .arrK }] 0 2).1 1 2).1 i).children =
      (nodeAt
        (addChild [{ kind := .objK }, { kind := .strK }, { kind := .arrK }]
          0 2).1 i).children :=
  addChild_single_parent
    (addChild [{ kind := .objK }, { kind := .strK }, { kind := .arrK }]
      0 2).1 1 2 rfl

/-- The IfEmpty constants (part_001:64-68). -/
def ArrayIfEmpty : String := "array"

def ObjectIfEmpty : String := "object"

def AbsentIfEmpty : String := "absent"

/-- The property type constants (part_001:71-79). -/
def StringType : String := "string"

def BoolType : String := "bool"

def IntType : String := "integer"

def FloatType : String := "float"

def PasswordType : String := "password"

def ObjectType : String := "object"

def ArrayType : String := "array"

/-- One form field (part_001:94-106). The structure is recursive through
the nested sub-properties, so it is an inductive with named projections. -/
inductive Property where
  | mk
    (name : String)
    (description : String)
    (help : String)
    (ifEmpty : String)
    (type : String)
    (conditionalExpression : String)
    (validationExpression : String)
    (required : Bool)
    (default : String)
    (enum : List String)
    (properties : List Property)
deriving Repr

def Property.name : Property → String
  | .mk n _ _ _ _ _ _ _ _ _ _ => n

def Property.description : Property → String
  | .mk _ d _ _ _ _ _ _ _ _ _ => d

def Property.help : Property → String
  | .mk _ _ h _ _ _ _ _ _ _ _ => h

def Property.ifEmpty : Property → String
  | .mk _ _ _ i _ _ _ _ _ _ _ => i

def Property.type : Property → String
  | .mk _ _ _ _ t _ _ _ _ _ _ => t

def Property.conditionalExpression : Property → String
  | .mk _ _ _ _ _ c _ _ _ _ _ => c

def Property.validationExpression : Property → String
  | .mk _ _ _ _ _ _ v _ _ _ _ => v

def Property.required : Property → Bool
  | .mk _ _ _ _ _ _ _ r _ _ _ => r

def Property.default : Property → String
  | .mk _ _ _ _ _ _ _ _ d _ _ => d

def Property.enum : Property → List String
  | .mk _ _ _ _ _ _ _ _ _ e _ => e

def Property.properties : Property → List Property
  | .mk _ _ _ _ _ _ _ _ _ _ ps => ps

/-- A form definition (part_001:84-88). -/
structure Form where
  name : String
  description : String
  properties : List Property

/-- propertyEmptyVal (part_002:125): the typed empty placeholder recorded
for an empty answer; an empty list for the array policy under the name, an
empty map for the object policy under the name, and the empty map (no key
at all) otherwise. -/
def propertyEmptyVal (p : Property) : List (String × Value) :=
  if p.ifEmpty = ArrayIfEmpty then [(p.name, .vList [])]
  else if p.ifEmpty = ObjectIfEmpty then [(p.name, .vMap [])]
  else []

/-- The decision askString (part_001:362-377) makes after collecting the
answer: nothing is added for an empty answer under the absent policy, the
typed empty placeholder is added for an empty answer under any other
non-empty policy, and the answer itself is recorded under the property
name otherwise. The returned map is the one wrapped in a new object entry
and adopted by the parent. -/
def askStringChild (p : Property) (ans : String) :
    Option (List (String × Value)) :=
  if ans = "" ∧ p.ifEmpty = AbsentIfEmpty then none
  else if ans = "" ∧ p.ifEmpty ≠ "" then some (propertyEmptyVal p)
  else some [(p.name, .vStr ans)]

/-- C10: the IfEmpty policy of a string property: an empty answer records
nothing under absent, the name mapped to the empty list under array, the
name mapped to the empty map under object, and the name mapped to the
empty string when the policy is unset; a non-empty answer always records
the name mapped to the answer. -/
theorem askString_ifEmpty_policy (p : Property) :
    (p.ifEmpty = AbsentIfEmpty → askStringChild p "" = none)
    ∧ (p.ifEmpty = ArrayIfEmpty →
        askStringChild p "" = some [(p.name, .vList [])])
    ∧ (p.ifEmpty = ObjectIfEmpty →
        askStringChild p "" = some [(p.name, .vMap [])])
    ∧ (p.ifEmpty = "" → askStringChild p "" = some [(p.name, .vStr "")])
    ∧ (∀ ans, ans ≠ "" → askStringChild p ans = some [(p.name, .vStr ans)]) := by
  refine ⟨fun h => ?_, fun h => ?_, fun h => ?_, fun h => ?_,
    fun ans hans => ?_⟩
  · simp [askStringChild, h]
  · have hne : p.ifEmpty ≠ AbsentIfEmpty := by
      rw [h]; decide
    have hne2 : p.ifEmpty ≠ "" := by
      rw [h]; decide
    simp [askStringChild, hne, hne2, propertyEmptyVal, h, ArrayIfEmpty,
      AbsentIfEmpty, ObjectIfEmpty]
  · have hne : p.ifEmpty ≠ AbsentIfEmpty := by
      rw [h]; decide
    have hne2 : p.ifEmpty ≠ "" := by
      rw [h]; decide
    have hne3 : p.ifEmpty ≠ ArrayIfEmpty := by
      rw [h]; decide
    simp [askStringChild, hne, hne2, propertyEmptyVal, hne3, h,
      ArrayIfEmpty, AbsentIfEmpty, ObjectIfEmpty]
  · have hne : p.ifEmpty ≠ AbsentIfEmpty := by
      rw [h]; decide
    simp [askStringChild, hne, h, AbsentIfEmpty]
  · simp [askStringChild, hans]

/-- Witness for C10 at concrete inputs: a string property named opt with
the array policy records the empty list for an empty answer, and any
property records a non-empty answer under its name. -/
theorem askString_ifEmpty_policy_witness :
    askStringChild
        (.mk "opt" "" "" "array" "string" "" "" false "" [] []) "" =
      some [("opt", .vList [])]
    ∧ askStringChild
        (.mk "greeting" "" "" "" "string" "" "" false "" [] []) "hello" =
      some [("greeting", .vStr "hello")] :=
  ⟨(askString_ifEmpty_policy
      (.mk "opt" "" "" "array" "string" "" "" false "" [] [])).2.1 rfl,
   (askString_ifEmpty_policy
      (.mk "greeting" "" "" "" "string" "" "" false "" [] [])).2.2.2.2
     "hello" (by decide)⟩

/-! The interactive form processor (part_001), driven by a scripted
prompter. The surveyor interface AskOne is modelled by a list of scripted
outcomes: each AskOne call consumes the next outcome, which is either a
prompt failure (cancellation, read failure) or a typed answer. Survey-side
validators only shape the dialogue inside the external prompt library and
never change which answer is finally delivered, so they do not appear in
the model. The expression evaluator (internal/validator) is external and
appears as the validate parameter; the template engine rendering of
description strings is external, never consumes prompts, and is modelled
by the literal description. -/

/-- One typed answer a prompt can deliver: survey writes either a string
(Input, Password, Select) or a bool (Confirm) into the response pointer. -/
inductive Ans where
  | aStr (s : String)
  | aBool (b : Bool)
deriving Repr, DecidableEq

/-- One scripted AskOne outcome. -/
abbrev Resp := Except String Ans

/-- An AskOne call expecting a string answer: consume the next outcome;
a scripted failure is returned as the prompt error, an answer of the wrong
shape is a read failure. -/
def askOneStr : List Resp → Except String (String × List Resp)
  | [] => .error "no response available"
  | .error e :: _ => .error e
  | .ok (.aStr v) :: rest => .ok (v, rest)
  | .ok (.aBool _) :: _ => .error "unexpected response type"

/-- An AskOne call expecting a bool answer (Confirm prompts). -/
def askOneBool : List Resp → Except String (Bool × List Resp)
  | [] => .error "no response available"
  | .error e :: _ => .error e
  | .ok (.aBool v) :: rest => .ok (v, rest)
  | .ok (.aStr _) :: _ => .error "unexpected response type"

/-- Modelled from the spec: the processor method askConfirmation, whose
defining file is not among the provided sources; per the Prompter
interface, its call sites (part_001:275,605,650) and the package-level
askConfirmation of the earlier variant (part_002:135), it issues one
Confirm prompt through the surveyor and returns the boolean answer
together with any prompt error, unchanged. -/
def askConfirmation (resp : List Resp) : Except String (Bool × List Resp) :=
  askOneBool resp

/-- The processor context: the caller environment and the external
expression evaluator validator.Validate behind its interface. -/
structure FormCtx where
  env : List (String × Value)
  validate : List (String × Value) → String → Except String Bool

/-- strconv.ParseBool: accepts 1, t, T, TRUE, true, True and 0, f, F,
FALSE, false, False. -/
def goParseBool (s : String) : Except String Bool :=
  if s = "1" ∨ s = "t" ∨ s = "T" ∨ s = "TRUE" ∨ s = "true" ∨ s = "True" then
    .ok true
  else if s = "0" ∨ s = "f" ∨ s = "F" ∨ s = "FALSE" ∨ s = "false" ∨
      s = "False" then
    .ok false
  else .error "invalid boolean syntax"

def parseDigitsAux : List Char → Nat → Option Nat
  | [], acc => some acc
  | c :: rest, acc =>
    if c.isDigit then parseDigitsAux rest (acc * 10 + (c.toNat - '0'.toNat))
    else none

/-- strconv.Atoi: an optional sign followed by at least one decimal digit
(the 64-bit range check of the source is not modelled). -/
def goAtoi (s : String) : Except String Int :=
  match s.toList with
  | [] => .error "invalid integer syntax"
  | '-' :: rest =>
    match rest, parseDigitsAux rest 0 with
    | [], _ => .error "invalid integer syntax"
    | _, none => .error "invalid integer syntax"
    | _, some n => .ok (-(n : Int))
  | '+' :: rest =>
    match rest, parseDigitsAux rest 0 with
    | [], _ => .error "invalid integer syntax"
    | _, none => .error "invalid integer syntax"
    | _, some n => .ok ((n : Int))
  | cs =>
    match parseDigitsAux cs 0 with
    | none => .error "invalid integer syntax"
    | some n => .ok ((n : Int))

def allDigits (cs : List Char) : Bool := !cs.isEmpty && cs.all (·.isDigit)

def validExp : List Char → Bool
  | '+' :: rest => allDigits rest
  | '-' :: rest => allDigits rest
  | cs => allDigits cs

def splitExp : List Char → List Char × Option (List Char)
  | [] => ([], none)
  | c :: rest =>
    if c = 'e' ∨ c = 'E' then ([], some rest)
    else
      let r := splitExp rest
      (c :: r.1, r.2)

def validMantissa (cs : List Char) : Bool :=
  cs.any (·.isDigit) && cs.all (fun c => c.isDigit || c = '.') &&
    decide ((cs.filter (fun c => c = '.')).length ≤ 1)

/-- strconv.ParseFloat as a syntax check: an optional sign, a mantissa of
digits with at most one dot, and an optional exponent (the special words
inf and nan and the hexadecimal forms are not modelled). The accepted
literal itself is the carried value, since no arithmetic is performed. -/
def goParseFloat (s : String) : Except String String :=
  let cs :=
    match s.toList with
    | '+' :: rest => rest
    | '-' :: rest => rest
    | cs => cs
  let body := splitExp cs
  if validMantissa body.1 &&
      (match body.2 with | none => true | some e => validExp e) then
    .ok s
  else .error "invalid float syntax"

/-- addChild on the pure tree view, with the concrete type dispatch (every
node adopted during form processing is freshly created, so the parent
guard of the arena model never fires on these calls): objEntry accepts obj
and str children, an arr child only as the only child (switching to
arrayMode); stringEntry accepts only obj children; arrayEntry accepts
anything. The child is appended to the ordered children. -/
def Entry.addChildE : Entry → Entry → Except String Entry
  | .objE s v am cs, c =>
    match c with
    | .objE .. => .ok (.objE s v am (cs ++ [c]))
    | .strE .. => .ok (.objE s v am (cs ++ [c]))
    | .arrE .. =>
      if 0 < cs.length then .error "only one array child is supported"
      else .ok (.objE s v true (cs ++ [c]))
  | .strE s v cs, c =>
    match c with
    | .objE .. => .ok (.strE s v (cs ++ [c]))
    | _ => .error "incompatible type, only object child values are supported"
  | .arrE s v cs, c => .ok (.arrE s v (cs ++ [c]))

/-- The number of children of a node. -/
def Entry.childCount : Entry → Nat
  | .objE _ _ _ cs => cs.length
  | .strE _ _ cs => cs.length
  | .arrE _ _ cs => cs.length

/-- Replace the i-th child of a node (used to reflect in-place mutation of
an adopted child in the pure tree view). -/
def Entry.setChild : Entry → Nat → Entry → Entry
  | .objE s v am cs, i, c => .objE s v am (cs.set i c)
  | .strE s v cs, i, c => .strE s v (cs.set i c)
  | .arrE s v cs, i, c => .arrE s v (cs.set i c)

/-- Property.RenderedDescription (part_001:110): the description template
is executed by the external engine and colorized; this consumes no
prompts, and the engine execution is out of scope, so the model returns
the literal description. -/
def renderedDescription (p : Property) (_env : List (String × Value)) :
    Except String String :=
  .ok p.description

/-- isOneOf (part_002:150). -/
def isOneOf (val : String) (valid : List String) : Bool :=
  valid.any (fun v => v = val)

/-- shouldProcess (part_001:679): no conditional means ask; otherwise the
caller environment is extended with input and Input bound to the combined
value of the root collected so far and the expression is evaluated. -/
def shouldProcess (ctx : FormCtx) (prop : Property) (root : Entry) :
    Except String Bool :=
  if prop.conditionalExpression = "" then .ok true
  else
    let iv := (combinedValue root).2
    let env := insertKV (insertKV ctx.env "input" iv) "Input" iv
    ctx.validate env prop.conditionalExpression

/-- askStringEnum (part_001:426): one Select prompt delivering a string
(the default shown in the prompt does not change the delivered answer). -/
def askStringEnum (_prop : Property) (resp : List Resp) :
    Except String (String × List Resp) :=
  askOneStr resp

/-- askStringValue (part_001:454): print the rendered description, then a
Select prompt when the property has enum values, otherwise an Input or
Password prompt; each delivers one string. -/
def askStringValue (ctx : FormCtx) (prop : Property) (resp : List Resp) :
    Except String (String × List Resp) :=
  match renderedDescription prop ctx.env with
  | .error e => .error e
  | .ok _ =>
    if 0 < prop.enum.length then askStringEnum prop resp
    else askOneStr resp

/-- askIntValue (part_001:529): description, one Input prompt, then
strconv.Atoi on the answer. -/
def askIntValue (ctx : FormCtx) (prop : Property) (resp : List Resp) :
    Except String (Int × List Resp) :=
  match renderedDescription prop ctx.env with
  | .error e => .error e
  | .ok _ =>
    match askOneStr resp with
    | .error e => .error e
    | .ok (ans, resp') =>
      match goAtoi ans with
      | .error e => .error e
      | .ok n => .ok (n, resp')

/-- askFloatValue (part_001:499): description, one Input prompt, then
strconv.ParseFloat on the answer. -/
def askFloatValue (ctx : FormCtx) (prop : Property) (resp : List Resp) :
    Except String (String × List Resp) :=
  match renderedDescription prop ctx.env with
  | .error e => .error e
  | .ok _ =>
    match askOneStr resp with
    | .error e => .error e
    | .ok (ans, resp') =>
      match goParseFloat ans with
      | .error e => .error e
      | .ok lit => .ok (lit, resp')

/-- askBoolValue (part_001:558): description, parse the default with
strconv.ParseBool when one is configured (failing before any prompt), then
one Confirm prompt. -/
def askBoolValue (ctx : FormCtx) (prop : Property) (resp : List Resp) :
    Except String (Bool × List Resp) :=
  match renderedDescription prop ctx.env with
  | .error e => .error e
  | .ok _ =>
    match (if prop.default ≠ "" then goParseBool prop.default
           else .ok false) with
    | .error e => .error e
    | .ok _ => askOneBool resp

/-- askString (part_001:362): collect the string answer and record it
under the parent according to the IfEmpty policy (askStringChild). -/
def askString (ctx : FormCtx) (prop : Property) (parent : Entry)
    (resp : List Resp) : Except String (Entry × List Resp) :=
  match askStringValue ctx prop resp with
  | .error e => .error e
  | .ok (ans, resp') =>
    match askStringChild prop ans with
    | none => .ok (parent, resp')
    | some m =>
      match parent.addChildE (newObjectEntry m) with
      | .error e => .error e
      | .ok parent' => .ok (parent', resp')

/-- askInt (part_001:324): collect and record an integer answer. -/
def askInt (ctx : FormCtx) (prop : Property) (parent : Entry)
    (resp : List Resp) : Except String (Entry × List Resp) :=
  match askIntValue ctx prop resp with
  | .error e => .error e
  | .ok (n, resp') =>
    match parent.addChildE (newObjectEntry [(prop.name, .vInt n)]) with
    | .error e => .error e
    | .ok parent' => .ok (parent', resp')

/-- askFloat (part_001:336): collect and record a float answer. -/
def askFloat (ctx : FormCtx) (prop : Property) (parent : Entry)
    (resp : List Resp) : Except String (Entry × List Resp) :=
  match askFloatValue ctx prop resp with
  | .error e => .error e
  | .ok (lit, resp') =>
    match parent.addChildE (newObjectEntry [(prop.name, .vFloat lit)]) with
    | .error e => .error e
    | .ok parent' => .ok (parent', resp')

/-- askBool (part_001:348): collect and record a bool answer. -/
def askBool (ctx : FormCtx) (prop : Property) (parent : Entry)
    (resp : List Resp) : Except String (Entry × List Resp) :=
  match askBoolValue ctx prop resp with
  | .error e => .error e
  | .ok (b, resp') =>
    match parent.addChildE (newObjectEntry [(prop.name, .vBool b)]) with
    | .error e => .error e
    | .ok parent' => .ok (parent', resp')

/-- The result of askArrayTypeProperty (part_001:589): a string slice from
the simple loop, a slice of maps from the sub-property loop, or the nil
return of the absent policy. -/
inductive ArrAns where
  | strs (l : List String)
  | maps (l : List (List (String × Value)))
  | nilAns
deriving Repr

/-! The mutually recursive walk of part_001, with a fuel argument making
the interactive repetition loops (whose real termination depends on the
user) well-founded: every call steps the fuel down once, and exhausted
fuel is a model-level error. The mkRoot closure rebuilds the full tree
from the current parent, reflecting that the source mutates a shared root:
conditionals evaluated deeper in the recursion observe all earlier
additions, while scratch entries (array collection) leave the root fixed,
exactly as in the source. -/

mutual

/-- askProperties (part_001:381): ask each property in order, skipping
those whose conditional evaluates to false against the current root. -/
def askProperties : Nat → FormCtx → List Property → Entry →
    (Entry → Entry) → List Resp → Except String (Entry × List Resp)
  | 0, _, _, _, _, _ => .error "model fuel exhausted"
  | _+1, _, [], parent, _, resp => .ok (parent, resp)
  | fuel+1, ctx, prop :: rest, parent, mkRoot, resp =>
    match shouldProcess ctx prop (mkRoot parent) with
    | .error e => .error e
    | .ok false => askProperties fuel ctx rest parent mkRoot resp
    | .ok true =>
      match askProperty fuel ctx prop parent mkRoot resp with
      | .error e => .error e
      | .ok pr => askProperties fuel ctx rest pr.1 mkRoot pr.2

/-- askProperty (part_001:400): the type dispatch. -/
def askProperty : Nat → FormCtx → Property → Entry → (Entry → Entry) →
    List Resp → Except String (Entry × List Resp)
  | 0, _, _, _, _, _ => .error "model fuel exhausted"
  | fuel+1, ctx, prop, parent, mkRoot, resp =>
    if prop.type = ArrayType then
      askArrayType fuel ctx prop parent mkRoot resp
    else if isOneOf prop.type [ObjectType, ""] = true ∧
        0 < prop.properties.length then
      askObjWithProperties fuel ctx prop parent mkRoot resp
    else if prop.type = BoolType then askBool ctx prop parent resp
    else if prop.type = IntType then askInt ctx prop parent resp
    else if prop.type = FloatType then askFloat ctx prop parent resp
    else if isOneOf prop.type [StringType, PasswordType, ""] = true then
      askString ctx prop parent resp
    else .error ("unsupported property type " ++ prop.type)

/-- askObjWithProperties (part_001:259): print the rendered description
once, then run the entry loop starting at the first entry. -/
def askObjWithProperties : Nat → FormCtx → Property → Entry →
    (Entry → Entry) → List Resp → Except String (Entry × List Resp)
  | 0, _, _, _, _, _ => .error "model fuel exhausted"
  | fuel+1, ctx, prop, parent, mkRoot, resp =>
    match renderedDescription prop ctx.env with
    | .error e => .error e
    | .ok _ => askObjLoop fuel ctx prop true parent mkRoot resp

/-- One iteration head of the loop in askObjWithProperties: for object
typed properties the add-entry confirmation is skipped only on the first
iteration of a required property; declining records the typed empty
placeholder under the parent and returns. -/
def askObjLoop : Nat → FormCtx → Property → Bool → Entry →
    (Entry → Entry) → List Resp → Except String (Entry × List Resp)
  | 0, _, _, _, _, _, _ => .error "model fuel exhausted"
  | fuel+1, ctx, prop, firstEntry, parent, mkRoot, resp =>
    if prop.type = ObjectType ∧
        (firstEntry = false ∨ prop.required = false) then
      match askConfirmation resp with
      | .error e => .error e
      | .ok (true, resp1) =>
        askObjEntryStep fuel ctx prop parent mkRoot resp1
      | .ok (false, resp1) =>
        match parent.addChildE (newObjectEntry (propertyEmptyVal prop)) with
        | .error e => .error e
        | .ok parent' => .ok (parent', resp1)
    else askObjEntryStep fuel ctx prop parent mkRoot resp

/-- The body of one iteration of the askObjWithProperties loop: prompt for
the unique entry name (object type) or use the property name (namespaced
group), adopt a fresh object entry keyed by it, ask the sub-properties
into that entry, and loop for object typed properties (namespaced groups
run once). -/
def askObjEntryStep : Nat → FormCtx → Property → Entry → (Entry → Entry) →
    List Resp → Except String (Entry × List Resp)
  | 0, _, _, _, _, _ => .error "model fuel exhausted"
  | fuel+1, ctx, prop, parent, mkRoot, resp =>
    match (if prop.type = ObjectType then askOneStr resp
           else .ok (prop.name, resp)) with
    | .error e => .error e
    | .ok (ans, resp1) =>
      let child := newObjectEntry [(ans, .vNil)]
      let idx := parent.childCount
      match parent.addChildE child with
      | .error e => .error e
      | .ok parent1 =>
        match askProperties fuel ctx prop.properties child
            (fun v => mkRoot (parent1.setChild idx v)) resp1 with
        | .error e => .error e
        | .ok cr =>
          let parent2 := parent1.setChild idx cr.1
          if prop.type = "" then .ok (parent2, cr.2)
          else askObjLoop fuel ctx prop false parent2 mkRoot cr.2

/-- askArrayType (part_001:216): collect the array answer against the
fixed current root, then attach an object entry holding the name mapped to
an empty slice, and under it an array entry holding the collected items
(none for the nil answer of the absent policy). -/
def askArrayType : Nat → FormCtx → Property → Entry → (Entry → Entry) →
    List Resp → Except String (Entry × List Resp)
  | 0, _, _, _, _, _ => .error "model fuel exhausted"
  | fuel+1, ctx, prop, parent, mkRoot, resp =>
    match askArrayTypeProperty fuel ctx prop (mkRoot parent) resp with
    | .error e => .error e
    | .ok (val, resp1) =>
      let np := newObjectEntry [(prop.name, .vList [])]
      let idx := parent.childCount
      match parent.addChildE np with
      | .error e => .error e
      | .ok parent1 =>
        match val with
        | .nilAns => .ok (parent1, resp1)
        | .strs l =>
          match np.addChildE (newArrayEntry (l.map Value.vStr)) with
          | .error e => .error e
          | .ok np' => .ok (parent1.setChild idx np', resp1)
        | .maps l =>
          match np.addChildE (newArrayEntry (l.map Value.vMap)) with
          | .error e => .error e
          | .ok np' => .ok (parent1.setChild idx np', resp1)

/-- askArrayTypeProperty (part_001:593): properties with sub-properties
collect a slice of maps, the rest collect a slice of strings. -/
def askArrayTypeProperty : Nat → FormCtx → Property → Entry → List Resp →
    Except String (ArrAns × List Resp)
  | 0, _, _, _, _ => .error "model fuel exhausted"
  | fuel+1, ctx, prop, root, resp =>
    if 0 < prop.properties.length then
      askArrayObjLoop fuel ctx prop root [] resp
    else askArrayStrLoop fuel ctx prop [] resp

/-- The sub-property collection loop of askArrayTypeProperty: once entries
exist, or for optional properties from the start, an add-entry
confirmation gates each iteration; declining returns the entries collected
so far, or for an empty collection the nil answer (absent policy) or the
typed empty placeholder. -/
def askArrayObjLoop : Nat → FormCtx → Property → Entry →
    List (List (String × Value)) → List Resp →
    Except String (ArrAns × List Resp)
  | 0, _, _, _, _, _ => .error "model fuel exhausted"
  | fuel+1, ctx, prop, root, answer, resp =>
    if 0 < answer.length ∨ prop.required = false then
      match askConfirmation resp with
      | .error e => .error e
      | .ok (true, resp1) =>
        askArrayObjBody fuel ctx prop root answer resp1
      | .ok (false, resp1) =>
        if 0 < answer.length then .ok (.maps answer, resp1)
        else if prop.ifEmpty = AbsentIfEmpty then .ok (.nilAns, resp1)
        else .ok (.maps [propertyEmptyVal prop], resp1)
    else askArrayObjBody fuel ctx prop root answer resp

/-- One accepted iteration of the sub-property collection loop: ask the
sub-properties into a scratch object entry (the root stays fixed), append
its combined value, which must be a map, and loop. -/
def askArrayObjBody : Nat → FormCtx → Property → Entry →
    List (List (String × Value)) → List Resp →
    Except String (ArrAns × List Resp)
  | 0, _, _, _, _, _ => .error "model fuel exhausted"
  | fuel+1, ctx, prop, root, answer, resp =>
    match askProperties fuel ctx prop.properties (newObjectEntry [])
        (fun _ => root) resp with
    | .error e => .error e
    | .ok vr =>
      match (combinedValue vr.1).2 with
      | .vMap m => askArrayObjLoop fuel ctx prop root (answer ++ [m]) vr.2
      | _ => .error "unexpected combined value type"

/-- The simple string collection loop of askArrayTypeProperty: once
entries exist, or for optional properties from the start, a confirmation
gates each iteration; declining, or an empty answer, ends the loop with
the strings collected so far. -/
def askArrayStrLoop : Nat → FormCtx → Property → List String → List Resp →
    Except String (ArrAns × List Resp)
  | 0, _, _, _, _ => .error "model fuel exhausted"
  | fuel+1, ctx, prop, ans, resp =>
    match (if 0 < ans.length ∨ prop.required = false then
             askConfirmation resp
           else .ok (true, resp)) with
    | .error e => .error e
    | .ok (ok1, resp1) =>
      match (if ok1 then askStringValue ctx prop resp1
             else .ok ("", resp1)) with
      | .error e => .error e
      | .ok (val, resp2) =>
        if val = "" then .ok (.strs ans, resp2)
        else askArrayStrLoop fuel ctx prop (ans ++ [val]) resp2

end

/-- ProcessForm (part_001:169): require a terminal and at least one
property; render and print the form description (external engine, no
prompt consumed); issue the Press enter to start prompt, whose answer and
whose error are both ignored (the source discards the AskOne return);
recursively ask the top level properties into a fresh root object entry;
and return the combined value of the root, which must be a map. -/
def processForm (f : Form) (ctx : FormCtx) (isTerminal : Bool) (fuel : Nat)
    (resp : List Resp) :
    Except String (List (String × Value) × List Resp) :=
  if isTerminal = false then
    .error "can only process forms on a valid terminal"
  else if f.properties.length = 0 then .error "no properties defined"
  else
    let resp1 := resp.drop 1
    match askProperties fuel ctx f.properties (newObjectEntry [])
        (fun v => v) resp1 with
    | .error e => .error e
    | .ok rr =>
      match (combinedValue rr.1).2 with
      | .vMap m => .ok (m, rr.2)
      | _ => .error "unexpected form result type"

/-- The responses consumed between init and rest were all successful
answers: rest is a suffix of init and every outcome before it is ok. -/
def consumedAllOk (init rest : List Resp) : Prop :=
  ∃ pre, init = pre ++ rest ∧ ∀ r ∈ pre, ∃ a, r = Except.ok a

theorem consumedAllOk_refl (l : List Resp) : consumedAllOk l l :=
  ⟨[], rfl, by simp⟩

theorem consumedAllOk_trans {a b c : List Resp} (h1 : consumedAllOk a b)
    (h2 : consumedAllOk b c) : consumedAllOk a c := by
  obtain ⟨p1, he1, ha1⟩ := h1
  obtain ⟨p2, he2, ha2⟩ := h2
  refine ⟨p1 ++ p2, ?_, ?_⟩
  · rw [he1, he2, List.append_assoc]
  · intro r hr
    rcases List.mem_append.mp hr with h | h
    · exact ha1 r h
    · exact ha2 r h

theorem askOneStr_consumed {resp : List Resp} {v : String}
    {rest : List Resp} (h : askOneStr resp = .ok (v, rest)) :
    consumedAllOk resp rest := by
  match resp with
  | [] => simp [askOneStr] at h
  | .error e :: r => simp [askOneStr] at h
  | .ok (.aBool b) :: r => simp [askOneStr] at h
  | .ok (.aStr s) :: r =>
    simp only [askOneStr] at h
    injection h with h1
    injection h1 with h2 h3
    subst h3
    refine ⟨[.ok (.aStr s)], rfl, ?_⟩
    intro x hx
    simp at hx
    subst hx
    exact ⟨_, rfl⟩

theorem askOneBool_consumed {resp : List Resp} {v : Bool}
    {rest : List Resp} (h : askOneBool resp = .ok (v, rest)) :
    consumedAllOk resp rest := by
  match resp with
  | [] => simp [askOneBool] at h
  | .error e :: r => simp [askOneBool] at h
  | .ok (.aStr s) :: r => simp [askOneBool] at h
  | .ok (.aBool b) :: r =>
    simp only [askOneBool] at h
    injection h with h1
    injection h1 with h2 h3
    subst h3
    refine ⟨[.ok (.aBool b)], rfl, ?_⟩
    intro x hx
    simp at hx
    subst hx
    exact ⟨_, rfl⟩

theorem askConfirmation_consumed {resp : List Resp} {v : Bool}
    {rest : List Resp} (h : askConfirmation resp = .ok (v, rest)) :
    consumedAllOk resp rest :=
  askOneBool_consumed h

theorem askStringValue_consumed {ctx : FormCtx} {prop : Property}
    {resp : List Resp} {v : String} {rest : List Resp}
    (h : askStringValue ctx prop resp = .ok (v, rest)) :
    consumedAllOk resp rest := by
  simp only [askStringValue, renderedDescription, askStringEnum] at h
  split at h
  · exact askOneStr_consumed h
  · exact askOneStr_consumed h

theorem askIntValue_consumed {ctx : FormCtx} {prop : Property}
    {resp : List Resp} {v : Int} {rest : List Resp}
    (h : askIntValue ctx prop resp = .ok (v, rest)) :
    consumedAllOk resp rest := by
  simp only [askIntValue, renderedDescription] at h
  split at h
  · cases h
  · rename_i ans resp1 h1
    split at h
    · cases h
    · injection h with h3
      injection h3 with h4 h5
      subst h5
      exact askOneStr_consumed h1

theorem askFloatValue_consumed {ctx : FormCtx} {prop : Property}
    {resp : List Resp} {v : String} {rest : List Resp}
    (h : askFloatValue ctx prop resp = .ok (v, rest)) :
    consumedAllOk resp rest := by
  simp only [askFloatValue, renderedDescription] at h
  split at h
  · cases h
  · rename_i ans resp1 h1
    split at h
    · cases h
    · injection h with h3
      injection h3 with h4 h5
      subst h5
      exact askOneStr_consumed h1

theorem askBoolValue_consumed {ctx : FormCtx} {prop : Property}
    {resp : List Resp} {v : Bool} {rest : List Resp}
    (h : askBoolValue ctx prop resp = .ok (v, rest)) :
    consumedAllOk resp rest := by
  simp only [askBoolValue, renderedDescription] at h
  split at h
  · cases h
  · exact askOneBool_consumed h

theorem askString_consumed {ctx : FormCtx} {prop : Property}
    {parent : Entry} {resp : List Resp} {out : Entry × List Resp}
    (h : askString ctx prop parent resp = .ok out) :
    consumedAllOk resp out.2 := by
  simp only [askString] at h
  split at h
  · cases h
  · rename_i ans resp1 h1
    split at h
    · injection h with h3
      subst h3
      exact askStringValue_consumed h1
    · split at h
      · cases h
      · injection h with h4
        subst h4
        exact askStringValue_consumed h1

theorem askInt_consumed {ctx : FormCtx} {prop : Property} {parent : Entry}
    {resp : List Resp} {out : Entry × List Resp}
    (h : askInt ctx prop parent resp = .ok out) :
    consumedAllOk resp out.2 := by
  simp only [askInt] at h
  split at h
  · cases h
  · rename_i n resp1 h1
    split at h
    · cases h
    · injection h with h3
      subst h3
      exact askIntValue_consumed h1

theorem askFloat_consumed {ctx : FormCtx} {prop : Property}
    {parent : Entry} {resp : List Resp} {out : Entry × List Resp}
    (h : askFloat ctx prop parent resp = .ok out) :
    consumedAllOk resp out.2 := by
  simp only [askFloat] at h
  split at h
  · cases h
  · rename_i lit resp1 h1
    split at h
    · cases h
    · injection h with h3
      subst h3
      exact askFloatValue_consumed h1

theorem askBool_consumed {ctx : FormCtx} {prop : Property} {parent : Entry}
    {resp : List Resp} {out : Entry × List Resp}
    (h : askBool ctx prop parent resp = .ok out) :
    consumedAllOk resp out.2 := by
  simp only [askBool] at h
  split at h
  · cases h
  · rename_i b resp1 h1
    split at h
    · cases h
    · injection h with h3
      subst h3
      exact askBoolValue_consumed h1

/-- Every walk function propagates every prompt failure: a successful run
never consumed an error outcome. Proved for all ten mutually recursive
functions at once, by induction on the fuel. -/
theorem askRun_consumed (fuel : Nat) :
    (∀ ctx props parent mkRoot resp out,
      askProperties fuel ctx props parent mkRoot resp = .ok out →
        consumedAllOk resp out.2)
    ∧ (∀ ctx prop parent mkRoot resp out,
      askProperty fuel ctx prop parent mkRoot resp = .ok out →
        consumedAllOk resp out.2)
    ∧ (∀ ctx prop parent mkRoot resp out,
      askObjWithProperties fuel ctx prop parent mkRoot resp = .ok out →
        consumedAllOk resp out.2)
    ∧ (∀ ctx prop firstEntry parent mkRoot resp out,
      askObjLoop fuel ctx prop firstEntry parent mkRoot resp = .ok out →
        consumedAllOk resp out.2)
    ∧ (∀ ctx prop parent mkRoot resp out,
      askObjEntryStep fuel ctx prop parent mkRoot resp = .ok out →
        consumedAllOk resp out.2)
    ∧ (∀ ctx prop parent mkRoot resp out,
      askArrayType fuel ctx prop parent mkRoot resp = .ok out →
        consumedAllOk resp out.2)
    ∧ (∀ ctx prop root resp out,
      askArrayTypeProperty fuel ctx prop root resp = .ok out →
        consumedAllOk resp out.2)
    ∧ (∀ ctx prop root answer resp out,
      askArrayObjLoop fuel ctx prop root answer resp = .ok out →
        consumedAllOk resp out.2)
    ∧ (∀ ctx prop root answer resp out,
      askArrayObjBody fuel ctx prop root answer resp = .ok out →
        consumedAllOk resp out.2)
    ∧ (∀ ctx prop ans resp out,
      askArrayStrLoop fuel ctx prop ans resp = .ok out →
        consumedAllOk resp out.2) := by
  induction fuel with
  | zero =>
    refine ⟨fun _ _ _ _ _ _ h => by simp [askProperties] at h,
      fun _ _ _ _ _ _ h => by simp [askProperty] at h,
      fun _ _ _ _ _ _ h => by simp [askObjWithProperties] at h,
      fun _ _ _ _ _ _ _ h => by simp [askObjLoop] at h,
      fun _ _ _ _ _ _ h => by simp [askObjEntryStep] at h,
      fun _ _ _ _ _ _ h => by simp [askArrayType] at h,
      fun _ _ _ _ _ h => by simp [askArrayTypeProperty] at h,
      fun _ _ _ _ _ _ h => by simp [askArrayObjLoop] at h,
      fun _ _ _ _ _ _ h => by simp [askArrayObjBody] at h,
      fun _ _ _ _ _ h => by simp [askArrayStrLoop] at h⟩
  | succ n ih =>
    obtain ⟨ihProps, ihProp, ihObjW, ihObjL, ihObjS, ihArrT, ihArrTP,
      ihArrOL, ihArrOB, ihArrSL⟩ := ih
    refine ⟨?_, ?_, ?_, ?_, ?_, ?_, ?_, ?_, ?_, ?_⟩
    · -- askProperties
      intro ctx props parent mkRoot resp out h
      cases props with
      | nil =>
        simp only [askProperties] at h
        injection h with h1
        subst h1
        exact consumedAllOk_refl resp
      | cons prop rest =>
        simp only [askProperties] at h
        cases hs : shouldProcess ctx prop (mkRoot parent) with
        | error e => rw [hs] at h; cases h
        | ok b =>
          rw [hs] at h
          cases b with
          | false => exact ihProps _ _ _ _ _ _ h
          | true =>
            cases ha : askProperty n ctx prop parent mkRoot resp with
            | error e => rw [ha] at h; cases h
            | ok pr =>
              rw [ha] at h
              exact consumedAllOk_trans (ihProp _ _ _ _ _ _ ha)
                (ihProps _ _ _ _ _ _ h)
    · -- askProperty
      intro ctx prop parent mkRoot resp out h
      simp only [askProperty] at h
      split at h
      · exact ihArrT _ _ _ _ _ _ h
      · split at h
        · exact ihObjW _ _ _ _ _ _ h
        · split at h
          · exact askBool_consumed h
          · split at h
            · exact askInt_consumed h
            · split at h
              · exact askFloat_consumed h
              · split at h
                · exact askString_consumed h
                · cases h
    · -- askObjWithProperties
      intro ctx prop parent mkRoot resp out h
      simp only [askObjWithProperties, renderedDescription] at h
      exact ihObjL _ _ _ _ _ _ _ h
    · -- askObjLoop
      intro ctx prop firstEntry parent mkRoot resp out h
      simp only [askObjLoop] at h
      split at h
      · cases hc : askConfirmation resp with
        | error e => rw [hc] at h; cases h
        | ok pr =>
          obtain ⟨b, resp1⟩ := pr
          rw [hc] at h
          cases b with
          | true =>
            exact consumedAllOk_trans (askConfirmation_consumed hc)
              (ihObjS _ _ _ _ _ _ h)
          | false =>
            cases hadd : Entry.addChildE parent
                (newObjectEntry (propertyEmptyVal prop)) with
            | error e => rw [hadd] at h; cases h
            | ok parent1 =>
              rw [hadd] at h
              injection h with h1
              subst h1
              exact askConfirmation_consumed hc
      · exact ihObjS _ _ _ _ _ _ h
    · -- askObjEntryStep
      intro ctx prop parent mkRoot resp out h
      simp only [askObjEntryStep] at h
      split at h
      · cases h
      · rename_i ans resp1 hn
        have hc1 : consumedAllOk resp resp1 := by
          split at hn
          · exact askOneStr_consumed hn
          · injection hn with h1
            injection h1 with h2 h3
            subst h3
            exact consumedAllOk_refl resp
        split at h
        · cases h
        · rename_i parent1 hadd
          split at h
          · cases h
          · rename_i cr hap
            split at h
            · injection h with h1
              subst h1
              exact consumedAllOk_trans hc1 (ihProps _ _ _ _ _ cr hap)
            · exact consumedAllOk_trans hc1
                (consumedAllOk_trans (ihProps _ _ _ _ _ cr hap)
                  (ihObjL _ _ _ _ _ _ _ h))
    · -- askArrayType
      intro ctx prop parent mkRoot resp out h
      simp only [askArrayType] at h
      split at h
      · cases h
      · rename_i val resp1 hat
        have hc1 : consumedAllOk resp resp1 := ihArrTP _ _ _ _ _ hat
        split at h
        · cases h
        · rename_i parent1 haddnp
          split at h
          · injection h with h1
            subst h1
            exact hc1
          · split at h
            · cases h
            · injection h with h1
              subst h1
              exact hc1
          · split at h
            · cases h
            · injection h with h1
              subst h1
              exact hc1
    · -- askArrayTypeProperty
      intro ctx prop root resp out h
      simp only [askArrayTypeProperty] at h
      split at h
      · exact ihArrOL _ _ _ _ _ _ h
      · exact ihArrSL _ _ _ _ _ h
    · -- askArrayObjLoop
      intro ctx prop root answer resp out h
      simp only [askArrayObjLoop] at h
      split at h
      · split at h
        · cases h
        · rename_i resp1 hc
          exact consumedAllOk_trans (askConfirmation_consumed hc)
            (ihArrOB _ _ _ _ _ _ h)
        · rename_i resp1 hc
          split at h
          · injection h with h1
            subst h1
            exact askConfirmation_consumed hc
          · split at h
            · injection h with h1
              subst h1
              exact askConfirmation_consumed hc
            · injection h with h1
              subst h1
              exact askConfirmation_consumed hc
      · exact ihArrOB _ _ _ _ _ _ h
    · -- askArrayObjBody
      intro ctx prop root answer resp out h
      simp only [askArrayObjBody] at h
      split at h
      · cases h
      · rename_i vr hap
        split at h
        · exact consumedAllOk_trans (ihProps _ _ _ _ _ _ hap)
            (ihArrOL _ _ _ _ _ _ h)
        · cases h
    · -- askArrayStrLoop
      intro ctx prop ans resp out h
      simp only [askArrayStrLoop] at h
      split at h
      · cases h
      · rename_i ok1 resp1 hc
        have hc1 : consumedAllOk resp resp1 := by
          split at hc
          · exact askConfirmation_consumed hc
          · injection hc with h1
            injection h1 with h2 h3
            subst h3
            exact consumedAllOk_refl resp
        split at h
        · cases h
        · rename_i val resp2 hv
          have hc2 : consumedAllOk resp1 resp2 := by
            split at hv
            · exact askStringValue_consumed hv
            · injection hv with h1
              injection h1 with h2 h3
              subst h3
              exact consumedAllOk_refl resp1
          split at h
          · injection h with h1
            subst h1
            exact consumedAllOk_trans hc1 hc2
          · exact consumedAllOk_trans hc1
              (consumedAllOk_trans hc2 (ihArrSL _ _ _ _ _ h))

/-- C8 amended: every Prompter failure on a prompt issued by the property
walk aborts the form and propagates: a successful processForm run never
consumed a failing outcome after the initial Press enter to start prompt.
That initial prompt is the exception the claim misses: its outcome,
failure included, is discarded by the source. -/
theorem processForm_prompt_errors_propagate (f : Form) (ctx : FormCtx)
    (isTerminal : Bool) (fuel : Nat) (resp : List Resp)
    (res : List (String × Value)) (rest : List Resp)
    (h : processForm f ctx isTerminal fuel resp = .ok (res, rest)) :
    consumedAllOk (resp.drop 1) rest := by
  simp only [processForm] at h
  split at h
  · cases h
  · split at h
    · cases h
    · split at h
      · cases h
      · rename_i rr hap
        have hcons := (askRun_consumed fuel).1 _ _ _ _ _ _ hap
        split at h
        · injection h with h1
          injection h1 with h2 h3
          subst h3
          exact hcons
        · cases h

/-- A one string-property form used for the concrete C8 runs. -/
def greetingForm : Form :=
  { name := "test", description := "d",
    properties := [.mk "greeting" "" "" "" "string" "" "" false "" [] []] }

/-- A trivial external expression evaluator for the concrete C8 runs. -/
def trueValidate : List (String × Value) → String → Except String Bool :=
  fun _ _ => .ok true

/-- C8 counterexample: a Prompter failure on the Press enter to start
prompt, a prompt issued during form processing, does not abort the form:
with the scripted outcomes interrupted-then-hello the run succeeds and
returns the greeting answer, so not every prompt error propagates to the
caller; the source discards the start prompt AskOne result. -/
theorem processForm_start_prompt_error_swallowed :
    processForm greetingForm ⟨[], trueValidate⟩ true 10
      [.error "interrupted", .ok (.aStr "hello")] =
    .ok ([("greeting", .vStr "hello")], []) := rfl

/-- Witness for the C8 amended theorem at a concrete run: the successful
greeting run consumed, after the start prompt, only ok outcomes. -/
theorem processForm_prompt_errors_propagate_witness :
    consumedAllOk
      (List.drop 1 [Except.error "interrupted",
        Except.ok (Ans.aStr "hello")]) [] :=
  processForm_prompt_errors_propagate greetingForm ⟨[], trueValidate⟩ true
    10 [.error "interrupted", .ok (.aStr "hello")]
    [("greeting", .vStr "hello")] [] rfl

end Forms
